import Mathlib

/-!
Verification of the ExpenseTracker expense persistence and query engine
(`src/main_async.py`): a single SQLite table `expenses` with five tool
operations `add_expense`, `update_expense`, `delete_expense`,
`list_expenses` and `summarize`.

Shallow embedding notes:
* The database file is modelled as a `DB`: the list of rows in rowid
  (insertion) order plus the `AUTOINCREMENT` counter `seq` (largest id
  ever assigned; SQLite's `AUTOINCREMENT` assigns `seq + 1` and never
  reuses ids of deleted rows).
* The `REAL` column `amount` is modelled as `ℚ` (exact arithmetic); no
  claim under verification depends on floating-point rounding.
* The two read operations call `cur.fetchall()` without `await`
  (`src/main_async.py` lines 105 and 131). `aiosqlite.Cursor.fetchall`
  is a coroutine function, so the list comprehension iterates a
  coroutine object and raises `TypeError: 'coroutine' object is not
  iterable`, which the broad `except` converts to the generic error
  result. The embedding models this actual behaviour: `list_expenses`
  and `summarize` return an object-shaped error on every call, and
  their row-sequence success branch is dead code in the source.
* Each operation takes an extra argument `err : Option String`: `none`
  means the storage layer succeeds, `some e` means it raises an
  exception whose textual description is `e` (the `except` branch of
  the Python code). On an exception nothing is committed, so the
  database is unchanged.
-/

namespace ExpenseTracker

/-- One row of the `expenses` table (schema from `init_db`):
`id INTEGER PRIMARY KEY AUTOINCREMENT`, `date TEXT`, `amount REAL`,
`category TEXT`, `subcategory TEXT DEFAULT ''`, `note TEXT DEFAULT ''`. -/
structure Row where
  id : Nat
  date : String
  amount : ℚ
  category : String
  subcategory : String
  note : String
deriving DecidableEq, Repr

/-- State of the database file: the rows in rowid order and the
`AUTOINCREMENT` sequence counter. -/
structure DB where
  rows : List Row
  seq : Nat
deriving DecidableEq, Repr

/-- `init_db` on a fresh file: empty table, counter at 0 (first id is 1). -/
def initDB : DB := ⟨[], 0⟩

/-- Does `pat` occur at the head of the second list? -/
def charsStartWith : List Char → List Char → Bool
  | [], _ => true
  | _ :: _, [] => false
  | a :: as, b :: bs => a == b && charsStartWith as bs

/-- Does `pat` occur as a contiguous subsequence? (Python `in` on strings.) -/
def containsSeq (pat : List Char) : List Char → Bool
  | [] => charsStartWith pat []
  | c :: cs => charsStartWith pat (c :: cs) || containsSeq pat cs

/-- `str(e).lower()` as a character list. -/
def lowerChars (s : String) : List Char := s.toList.map Char.toLower

/-- The test `"readonly" in str(e).lower()` of the three mutating tools. -/
def hasReadonly (e : String) : Bool := containsSeq "readonly".toList (lowerChars e)

/-- The specific message returned when the failure text mentions `readonly`. -/
def readonlyMessage : String := "Database is in read-only mode. Check file permissions."

/-- Error classification performed by `add_expense`, `update_expense` and
`delete_expense`: readonly failures get `readonlyMessage`, every other
failure the generic `"Database error: <details>"`. -/
def mutationErrorMessage (e : String) : String :=
  if hasReadonly e then readonlyMessage else "Database error: " ++ e

/-- Result of `add_expense`. -/
inductive AddResult where
  | ok (id : Nat) (message : String)
  | error (message : String)
deriving DecidableEq, Repr

/-- Result of `update_expense`. -/
inductive UpdateResult where
  | ok (updated : Nat) (message : String)
  | error (message : String)
deriving DecidableEq, Repr

/-- Result of `delete_expense`. -/
inductive DeleteResult where
  | ok (deleted : Nat) (message : String)
  | error (message : String)
deriving DecidableEq, Repr

/-- Result of `list_expenses`: a list of row objects on success, an
object-shaped error result on failure. -/
inductive ListResult where
  | rows (items : List Row)
  | error (message : String)
deriving DecidableEq, Repr

/-- One output group of `summarize`: `SELECT category, SUM(amount) AS total_amount`. -/
structure SummaryRow where
  category : String
  total_amount : ℚ
deriving DecidableEq, Repr

/-- Result of `summarize`. -/
inductive SummarizeResult where
  | groups (items : List SummaryRow)
  | error (message : String)
deriving DecidableEq, Repr

/-- `add_expense(date, amount, category, subcategory="", note="")`:
inserts one row with the next `AUTOINCREMENT` id and returns
`{"status": "ok", "id": cur.lastrowid, "message": ...}`. -/
def add_expense (db : DB) (err : Option String) (date : String) (amount : ℚ)
    (category subcategory note : String) : AddResult × DB :=
  match err with
  | some e => (.error (mutationErrorMessage e), db)
  | none =>
      let newId := db.seq + 1
      (.ok newId "Expense added successfully",
        ⟨db.rows ++ [⟨newId, date, amount, category, subcategory, note⟩], newId⟩)

/-- The WHERE clause assembled by `update_expense` and `delete_expense`:
`date = ? AND category = ?`, plus `AND subcategory = ?` appended only when
`subcategory is not None`. -/
def matchRow (date category : String) (subcategory : Option String) (r : Row) : Bool :=
  r.date == date && r.category == category &&
    (match subcategory with
     | none => true
     | some s => r.subcategory == s)

/-- The SET clause of `update_expense`: `amount = ?` always, `note = ?`
appended only when `note is not None`. -/
def applyUpdate (amount : ℚ) (note : Option String) (r : Row) : Row :=
  ⟨r.id, r.date, amount, r.category, r.subcategory,
    match note with
    | none => r.note
    | some n => n⟩

/-- `update_expense(date, category, amount, subcategory=None, note=None)`:
`UPDATE expenses SET ... WHERE ...`; `cur.rowcount` counts the matched rows. -/
def update_expense (db : DB) (err : Option String) (date category : String)
    (amount : ℚ) (subcategory note : Option String) : UpdateResult × DB :=
  match err with
  | some e => (.error (mutationErrorMessage e), db)
  | none =>
      ((.ok (db.rows.countP (matchRow date category subcategory))
          "Expense updated successfully"),
        ⟨db.rows.map (fun r =>
            if matchRow date category subcategory r then applyUpdate amount note r else r),
          db.seq⟩)

/-- `delete_expense(date, category, subcategory=None)`:
`DELETE FROM expenses WHERE ...`; `cur.rowcount` counts the deleted rows. -/
def delete_expense (db : DB) (err : Option String) (date category : String)
    (subcategory : Option String) : DeleteResult × DB :=
  match err with
  | some e => (.error (mutationErrorMessage e), db)
  | none =>
      ((.ok (db.rows.countP (matchRow date category subcategory))
          "Expense deleted successfully"),
        ⟨db.rows.filter (fun r => !(matchRow date category subcategory r)), db.seq⟩)

/-- Text of the `TypeError` raised when the list comprehension iterates
the coroutine object returned by the un-awaited `cur.fetchall()`. -/
def coroutineTypeError : String := "'coroutine' object is not iterable"

/-- Model of `list_expenses(start_date, end_date)`. The body executes
`SELECT id, date, amount, category, subcategory, note FROM expenses WHERE
date BETWEEN ? AND ? ORDER BY id ASC` and then builds the row dicts from
`cur.fetchall()` — but `fetchall` is a coroutine function and is not
awaited (`src/main_async.py:105`), so the comprehension raises `TypeError`
and the broad `except` returns the generic error result. Every call
therefore yields an object-shaped error: embedding the storage failure's
description when connect/execute fails first, and the `TypeError` text
otherwise; the row-sequence success branch is dead code. The SELECT never
mutates the table. -/
def list_expenses (db : DB) (err : Option String) (start_date end_date : String) :
    ListResult × DB :=
  match err with
  | some e => (.error ("Error listing expenses: " ++ e), db)
  | none => (.error ("Error listing expenses: " ++ coroutineTypeError), db)

/-- Model of `summarize(start_date, end_date, category=None)`. The body
executes `SELECT category, SUM(amount) AS total_amount FROM expenses WHERE
date BETWEEN ? AND ? [AND category = ?] GROUP BY category ORDER BY category
ASC` and then, exactly like `list_expenses`, iterates an un-awaited
`cur.fetchall()` (`src/main_async.py:131`): the `TypeError` is caught and
every call returns an object-shaped error — the storage failure's
description when connect/execute fails first, the `TypeError` text
otherwise. The grouped success branch is dead code; the table is never
mutated. -/
def summarize (db : DB) (err : Option String) (start_date end_date : String)
    (category : Option String) : SummarizeResult × DB :=
  match err with
  | some e => (.error ("Error summarizing expenses: " ++ e), db)
  | none => (.error ("Error summarizing expenses: " ++ coroutineTypeError), db)

/-! ### Specification-side predicate

This restates the update/delete matching condition in the spec's words
(presence of an optional parameter) as a `Prop`, to be related to the
Bool-valued WHERE clause assembled from the SQL. -/

/-- Spec reading of the update/delete selection: rows whose `date` and
`category` equal the given values, restricted on `subcategory` only when a
non-null subcategory was supplied. -/
def MatchSpec (date category : String) (subcategory : Option String) (r : Row) : Prop :=
  r.date = date ∧ r.category = category ∧
    ∀ s, subcategory = some s → r.subcategory = s

theorem matchRow_eq_true_iff (date category : String) (subcategory : Option String)
    (r : Row) : matchRow date category subcategory r = true ↔
      MatchSpec date category subcategory r := by
  cases subcategory <;>
    simp [matchRow, MatchSpec, Bool.and_assoc, and_assoc]

instance (date category : String) (subcategory : Option String) (r : Row) :
    Decidable (MatchSpec date category subcategory r) :=
  decidable_of_iff _ (matchRow_eq_true_iff date category subcategory r)

theorem decide_matchSpec (d c : String) (subO : Option String) (r : Row) :
    decide (MatchSpec d c subO r) = matchRow d c subO r := by
  rw [Bool.eq_iff_iff, decide_eq_true_iff, matchRow_eq_true_iff]

theorem filter_decide_matchSpec (l : List Row) (d c : String) (subO : Option String) :
    (l.filter fun r => decide (MatchSpec d c subO r)) = l.filter (matchRow d c subO) :=
  List.filter_congr fun r _ => decide_matchSpec d c subO r

theorem updateFun_pointwise (d c : String) (a : ℚ) (subO noteO : Option String)
    (r : Row) :
    (if matchRow d c subO r then applyUpdate a noteO r else r)
      = (if MatchSpec d c subO r then
          (⟨r.id, r.date, a, r.category, r.subcategory,
            match noteO with
            | none => r.note
            | some n => n⟩ : Row)
        else r) := by
  by_cases h : MatchSpec d c subO r
  · rw [if_pos ((matchRow_eq_true_iff d c subO r).mpr h), if_pos h]
    rfl
  · rw [if_neg (fun hb => h ((matchRow_eq_true_iff d c subO r).mp hb)), if_neg h]

/-! ### Claims -/

/-- C10: for every input (including injected storage failures),
`list_expenses` and `summarize` leave the stored expenses table — rows and
sequence counter alike — completely unchanged. -/
theorem reads_leave_table_unchanged (db : DB) (err : Option String)
    (s e : String) (cat : Option String) :
    (list_expenses db err s e).2 = db ∧ (summarize db err s e cat).2 = db := by
  cases err <;> exact ⟨rfl, rfl⟩

/-- C5 counterexample: a storage failure whose description indicates a
read-only database, raised during `list_expenses`, is reported with the
generic listing message, not with the specific read-only / check-file-
permissions message that the claim requires of every operation. -/
theorem list_readonly_error_counterexample :
    hasReadonly "attempt to write a readonly database" = true
    ∧ (list_expenses initDB (some "attempt to write a readonly database")
        "2024-01-01" "2024-12-31").1
      = ListResult.error "Error listing expenses: attempt to write a readonly database"
    ∧ "Error listing expenses: attempt to write a readonly database" ≠ readonlyMessage := by
  exact ⟨by decide, rfl, by decide⟩

/-- C5 (amended): every storage failure in any of the five operations is
caught and converted to a structured error result with the database left
unchanged; the three mutating operations classify the failure (the specific
read-only message exactly when the description mentions `readonly`,
otherwise the generic `Database error: <details>`), while the two read
operations always report a generic message embedding the detail text. -/
theorem storage_error_propagation (db : DB) (e : String) (d c sc nt : String)
    (a : ℚ) (subO noteO : Option String) (s ed : String) (cat : Option String) :
    add_expense db (some e) d a c sc nt = (.error (mutationErrorMessage e), db)
    ∧ update_expense db (some e) d c a subO noteO = (.error (mutationErrorMessage e), db)
    ∧ delete_expense db (some e) d c subO = (.error (mutationErrorMessage e), db)
    ∧ list_expenses db (some e) s ed = (.error ("Error listing expenses: " ++ e), db)
    ∧ summarize db (some e) s ed cat = (.error ("Error summarizing expenses: " ++ e), db)
    ∧ mutationErrorMessage e
        = (if hasReadonly e then readonlyMessage else "Database error: " ++ e) :=
  ⟨rfl, rfl, rfl, rfl, rfl, rfl⟩

/-- C2: `update_expense` returns `ok` with `updated` equal to the number of
rows whose `date` and `category` match (restricted on `subcategory` exactly
when one was supplied), sets `amount` on exactly those rows (all other
fields and rows as dictated by the note parameter), and a zero count is
still an `ok` result. -/
theorem update_bulk_scope (db : DB) (d c : String) (a : ℚ)
    (subO noteO : Option String) :
    (update_expense db none d c a subO noteO).1 =
      UpdateResult.ok ((db.rows.filter fun r => decide (MatchSpec d c subO r)).length)
        "Expense updated successfully"
    ∧ (update_expense db none d c a subO noteO).2.rows =
        db.rows.map (fun r =>
          if MatchSpec d c subO r then
            (⟨r.id, r.date, a, r.category, r.subcategory,
              match noteO with
              | none => r.note
              | some n => n⟩ : Row)
          else r)
    ∧ (update_expense db none d c a subO noteO).2.seq = db.seq := by
  refine ⟨?_, ?_, rfl⟩
  · simp only [update_expense, List.countP_eq_length_filter, filter_decide_matchSpec]
  · simp only [update_expense]
    exact List.map_congr_left fun r _ => updateFun_pointwise d c a subO noteO r

/-- C6: with `note=None`, every matched row keeps its existing note while
its amount is set; with a non-null note, the note is set on every matched
row. -/
theorem update_note_frame (db : DB) (d c : String) (a : ℚ)
    (subO : Option String) (nt : String) :
    (update_expense db none d c a subO none).2.rows =
      db.rows.map (fun r =>
        if MatchSpec d c subO r then
          (⟨r.id, r.date, a, r.category, r.subcategory, r.note⟩ : Row)
        else r)
    ∧ (update_expense db none d c a subO (some nt)).2.rows =
      db.rows.map (fun r =>
        if MatchSpec d c subO r then
          (⟨r.id, r.date, a, r.category, r.subcategory, nt⟩ : Row)
        else r) := by
  constructor
  · simp only [update_expense]
    exact List.map_congr_left fun r _ => updateFun_pointwise d c a subO none r
  · simp only [update_expense]
    exact List.map_congr_left fun r _ => updateFun_pointwise d c a subO (some nt) r

/-- C7: `delete_expense` removes exactly the matching rows and returns `ok`
with `deleted` the number removed; when nothing matches it returns
`ok, deleted: 0` and the table is unchanged. -/
theorem delete_bulk_scope (db : DB) (d c : String) (subO : Option String) :
    (delete_expense db none d c subO).1 =
      DeleteResult.ok ((db.rows.filter fun r => decide (MatchSpec d c subO r)).length)
        "Expense deleted successfully"
    ∧ (delete_expense db none d c subO).2.rows =
        db.rows.filter (fun r => !(decide (MatchSpec d c subO r)))
    ∧ (delete_expense db none d c subO).2.seq = db.seq
    ∧ ((db.rows.filter fun r => decide (MatchSpec d c subO r)).length = 0 →
        delete_expense db none d c subO
          = (DeleteResult.ok 0 "Expense deleted successfully", db)) := by
  refine ⟨?_, ?_, rfl, ?_⟩
  · simp only [delete_expense, List.countP_eq_length_filter, filter_decide_matchSpec]
  · simp only [delete_expense]
    exact (List.filter_congr fun r _ => by rw [decide_matchSpec]).symm
  · intro h0
    rw [filter_decide_matchSpec, List.length_eq_zero, List.filter_eq_nil_iff] at h0
    simp only [delete_expense, List.countP_eq_length_filter]
    have hrows : db.rows.filter (fun r => !(matchRow d c subO r)) = db.rows := by
      rw [List.filter_eq_self]
      intro r hr
      simp [h0 r hr]
    have hlen : (db.rows.filter (matchRow d c subO)).length = 0 := by
      rw [List.length_eq_zero, List.filter_eq_nil_iff]
      exact h0
    rw [hlen, hrows]

/-- C8: for `update_expense` and `delete_expense` the subcategory filter
branches on presence, not truthiness: an explicit empty-string subcategory
matches only rows whose subcategory is the empty string, while omitting it
matches rows with every subcategory — and the two behaviours differ on a
concrete row whose subcategory is `"Groceries"`. -/
theorem subcategory_presence_branch (db : DB) (d c : String) (a : ℚ) :
    (delete_expense db none d c (some "")).1 =
      DeleteResult.ok ((db.rows.filter fun r =>
          r.date == d && r.category == c && r.subcategory == "").length)
        "Expense deleted successfully"
    ∧ (delete_expense db none d c none).1 =
      DeleteResult.ok ((db.rows.filter fun r =>
          r.date == d && r.category == c).length)
        "Expense deleted successfully"
    ∧ (update_expense db none d c a (some "") none).1 =
      UpdateResult.ok ((db.rows.filter fun r =>
          r.date == d && r.category == c && r.subcategory == "").length)
        "Expense updated successfully"
    ∧ (update_expense db none d c a none none).1 =
      UpdateResult.ok ((db.rows.filter fun r =>
          r.date == d && r.category == c).length)
        "Expense updated successfully"
    ∧ (delete_expense ⟨[⟨1, "2024-01-05", 10, "Food", "Groceries", ""⟩], 1⟩ none
        "2024-01-05" "Food" (some "")).1
      = DeleteResult.ok 0 "Expense deleted successfully"
    ∧ (delete_expense ⟨[⟨1, "2024-01-05", 10, "Food", "Groceries", ""⟩], 1⟩ none
        "2024-01-05" "Food" none).1
      = DeleteResult.ok 1 "Expense deleted successfully" := by
  have hsome : ∀ r ∈ db.rows, matchRow d c (some "") r
      = (r.date == d && r.category == c && r.subcategory == "") := fun r _ => rfl
  have hnone : ∀ r ∈ db.rows, matchRow d c none r
      = (r.date == d && r.category == c) := fun r _ => by simp [matchRow]
  refine ⟨?_, ?_, ?_, ?_, by decide, by decide⟩
  · simp only [delete_expense, List.countP_eq_length_filter]
    rw [List.filter_congr hsome]
  · simp only [delete_expense, List.countP_eq_length_filter]
    rw [List.filter_congr hnone]
  · simp only [update_expense, List.countP_eq_length_filter]
    rw [List.filter_congr hsome]
  · simp only [update_expense, List.countP_eq_length_filter]
    rw [List.filter_congr hnone]

/-- C4: contrary to the claim, `list_expenses` never returns the filtered,
id-ordered row sequence: the un-awaited `cur.fetchall()` coroutine makes
the comprehension raise `TypeError`, the broad handler catches it, and
every call — whatever the table state, range or storage outcome — returns
the object-shaped error result (carrying the `TypeError` text when the
storage layer itself did not fail) and leaves the table unchanged. -/
theorem list_expenses_always_errors (db : DB) (err : Option String) (s e : String) :
    (list_expenses db none s e).1
      = ListResult.error ("Error listing expenses: " ++ coroutineTypeError)
    ∧ (∀ rs, (list_expenses db err s e).1 ≠ ListResult.rows rs)
    ∧ (list_expenses db err s e).2 = db := by
  refine ⟨rfl, fun rs h => ?_, ?_⟩
  · cases err <;> exact ListResult.noConfusion h
  · cases err <;> rfl

/-- C1: the add half of the round-trip does hold — `add_expense` succeeds
with the fresh positive id `seq + 1` and the row is durably inserted — but
the subsequent `list_expenses` call can never return a sequence containing
that row: because of the un-awaited `cur.fetchall()` it returns the
object-shaped error result on every call, for every date range. -/
theorem add_then_list_roundtrip_broken (db : DB) (d : String) (a : ℚ)
    (c sc nt s e : String) :
    (add_expense db none d a c sc nt).1
      = AddResult.ok (db.seq + 1) "Expense added successfully"
    ∧ 0 < db.seq + 1
    ∧ (add_expense db none d a c sc nt).2.rows
      = db.rows ++ [⟨db.seq + 1, d, a, c, sc, nt⟩]
    ∧ (list_expenses (add_expense db none d a c sc nt).2 none s e).1
      = ListResult.error ("Error listing expenses: " ++ coroutineTypeError)
    ∧ ∀ (err : Option String) (rs : List Row),
        (list_expenses (add_expense db none d a c sc nt).2 err s e).1
          ≠ ListResult.rows rs := by
  refine ⟨rfl, Nat.succ_pos _, rfl, rfl, fun err rs h => ?_⟩
  cases err <;> exact ListResult.noConfusion h

/-- C3: contrary to the claim, `summarize` never returns the grouped
category totals: exactly like `list_expenses` it iterates an un-awaited
`cur.fetchall()` coroutine, so every call returns the object-shaped error
result (with the `TypeError` text when the storage layer itself did not
fail) and leaves the table unchanged. -/
theorem summarize_always_errors (db : DB) (err : Option String) (s e : String)
    (cat : Option String) :
    (summarize db none s e cat).1
      = SummarizeResult.error ("Error summarizing expenses: " ++ coroutineTypeError)
    ∧ (∀ gs, (summarize db err s e cat).1 ≠ SummarizeResult.groups gs)
    ∧ (summarize db err s e cat).2 = db := by
  refine ⟨rfl, fun gs h => ?_, ?_⟩
  · cases err <;> exact SummarizeResult.noConfusion h
  · cases err <;> rfl


/-! ### Operation sequences and the id discipline -/

/-- One tool invocation (with an arbitrary storage outcome) as a transition
on the database state. -/
inductive Step : DB → DB → Prop where
  | add (db : DB) (err : Option String) (d : String) (a : ℚ) (c sc nt : String) :
      Step db (add_expense db err d a c sc nt).2
  | update (db : DB) (err : Option String) (d c : String) (a : ℚ)
      (subO noteO : Option String) :
      Step db (update_expense db err d c a subO noteO).2
  | del (db : DB) (err : Option String) (d c : String) (subO : Option String) :
      Step db (delete_expense db err d c subO).2
  | listing (db : DB) (err : Option String) (s e : String) :
      Step db (list_expenses db err s e).2
  | total (db : DB) (err : Option String) (s e : String) (cat : Option String) :
      Step db (summarize db err s e cat).2

/-- Database states reachable from the initialized store by sequences of
operations. -/
inductive Reachable : DB → Prop where
  | init : Reachable initDB
  | step (db db' : DB) : Reachable db → Step db db' → Reachable db'

/-- The id discipline maintained by the store: every id is positive and at
most the `AUTOINCREMENT` counter, and ids are strictly increasing along the
table. -/
def IdInv (db : DB) : Prop :=
  (∀ r ∈ db.rows, 1 ≤ r.id ∧ r.id ≤ db.seq)
  ∧ db.rows.Pairwise (fun a b => a.id < b.id)

theorem update_row_id (d c : String) (a : ℚ) (subO noteO : Option String) (r : Row) :
    (if matchRow d c subO r then applyUpdate a noteO r else r).id = r.id := by
  by_cases h : matchRow d c subO r = true <;> simp [h, applyUpdate]

theorem step_preserves_IdInv (db db' : DB) (hstep : Step db db') (hinv : IdInv db) :
    IdInv db' := by
  obtain ⟨hbd, hpw⟩ := hinv
  cases hstep with
  | add err d a c sc nt =>
      cases err with
      | some e => exact ⟨hbd, hpw⟩
      | none =>
          constructor
          · intro r hr
            rcases List.mem_append.mp hr with hold | hnew
            · exact ⟨(hbd r hold).1, Nat.le_succ_of_le (hbd r hold).2⟩
            · rw [List.mem_singleton.mp hnew]
              exact ⟨Nat.succ_le_succ (Nat.zero_le _), Nat.le_refl _⟩
          · refine List.pairwise_append.mpr ⟨hpw, List.pairwise_singleton _ _, ?_⟩
            intro x hx y hy
            rw [List.mem_singleton.mp hy]
            exact Nat.lt_succ_of_le (hbd x hx).2
  | update err d c a subO noteO =>
      cases err with
      | some e => exact ⟨hbd, hpw⟩
      | none =>
          constructor
          · intro r' hr'
            rcases List.mem_map.mp hr' with ⟨r, hr, hr'eq⟩
            rw [← hr'eq, update_row_id]
            exact hbd r hr
          · show List.Pairwise (fun a b => a.id < b.id)
              (db.rows.map fun r =>
                if matchRow d c subO r then applyUpdate a noteO r else r)
            rw [List.pairwise_map]
            exact hpw.imp fun {x y} hxy => by
              rw [update_row_id, update_row_id]; exact hxy
  | del err d c subO =>
      cases err with
      | some e => exact ⟨hbd, hpw⟩
      | none =>
          constructor
          · intro r hr
            exact hbd r (List.mem_of_mem_filter hr)
          · exact List.Pairwise.sublist (List.filter_sublist _) hpw
  | listing err s e =>
      cases err with
      | some e0 => exact ⟨hbd, hpw⟩
      | none => exact ⟨hbd, hpw⟩
  | total err s e cat =>
      cases err with
      | some e0 => exact ⟨hbd, hpw⟩
      | none => exact ⟨hbd, hpw⟩

/-- C9: (a) every reachable database state satisfies the id discipline —
positive, counter-bounded, strictly increasing ids, in particular pairwise
distinct; (b) the counter never decreases across any operation; (c) a
successful `add_expense` assigns id `seq + 1` (strictly above every id ever
assigned, so distinct from present and deleted rows' ids, and ids of
successive adds strictly increase) and bumps the counter; (d) `update_expense`
preserves the id of every row; (e) `delete_expense` only removes ids, never
alters them. -/
theorem id_uniqueness_discipline :
    (∀ db, Reachable db → IdInv db)
    ∧ (∀ db db', Step db db' → db.seq ≤ db'.seq)
    ∧ (∀ (db : DB) (d : String) (a : ℚ) (c sc nt : String),
        (add_expense db none d a c sc nt).2.rows.map Row.id
            = db.rows.map Row.id ++ [db.seq + 1]
        ∧ (add_expense db none d a c sc nt).2.seq = db.seq + 1
        ∧ (add_expense db none d a c sc nt).1
            = AddResult.ok (db.seq + 1) "Expense added successfully")
    ∧ (∀ (db : DB) (err : Option String) (d c : String) (a : ℚ)
        (subO noteO : Option String),
        (update_expense db err d c a subO noteO).2.rows.map Row.id
          = db.rows.map Row.id)
    ∧ (∀ (db : DB) (err : Option String) (d c : String) (subO : Option String),
        ((delete_expense db err d c subO).2.rows.map Row.id).Sublist
          (db.rows.map Row.id)) := by
  refine ⟨?_, ?_, ?_, ?_, ?_⟩
  · intro db h
    induction h with
    | init => exact ⟨fun r hr => absurd hr (List.not_mem_nil r), List.Pairwise.nil⟩
    | step db db' _ hstep ih => exact step_preserves_IdInv db db' hstep ih
  · intro db db' hstep
    cases hstep with
    | add err d a c sc nt =>
        cases err with
        | some e => exact Nat.le_refl _
        | none => exact Nat.le_succ _
    | update err d c a subO noteO => cases err <;> exact Nat.le_refl _
    | del err d c subO => cases err <;> exact Nat.le_refl _
    | listing err s e => cases err <;> exact Nat.le_refl _
    | total err s e cat => cases err <;> exact Nat.le_refl _
  · intro db d a c sc nt
    exact ⟨by simp [add_expense], rfl, rfl⟩
  · intro db err d c a subO noteO
    cases err with
    | some e => rfl
    | none =>
        simp only [update_expense, List.map_map]
        exact List.map_congr_left fun r _ => update_row_id d c a subO noteO r
  · intro db err d c subO
    cases err with
    | some e => exact List.Sublist.refl _
    | none => exact List.Sublist.map Row.id (List.filter_sublist _)

end ExpenseTracker
